import Mathlib

/-!
Shallow embedding of the canvas command/mutation engine of the Tiny Legends
repository (`src/app/page.tsx`, `src/lib/canvas/types.ts`).  Item data is
modelled as a JavaScript-style record (association list of field name to
value) so that the duck-typed `hasOwnProperty` / `typeof` guards of the
handlers translate faithfully.  Functions from `lib/canvas/updates.ts` and
`lib/canvas/state.ts`, which are not part of the sources, are modelled from
the specification and marked as such in their doc comments.
-/

namespace TinyLegends

/-- Card types, from `CardType` in `lib/canvas/types.ts`. -/
inductive CardType where
  | project
  | entity
  | note
  | chart
  | character
  | story
deriving DecidableEq, Repr

/-- A chart metric value: a number, or the unset marker (the empty string in
the TypeScript type `number | ""`). -/
inductive MetricValue where
  | num (n : Int)
  | unset
deriving DecidableEq, Repr

/-- `ChecklistItem` from `lib/canvas/types.ts`. -/
structure ChecklistEntry where
  id : String
  text : String
  done : Bool
  proposed : Bool
deriving DecidableEq, Repr

/-- `ChartMetric` from `lib/canvas/types.ts`. -/
structure Metric where
  id : String
  label : String
  value : MetricValue
deriving DecidableEq, Repr

/-- A story slide, from `StorySlideData` in `lib/canvas/types.ts`. -/
structure Slide where
  id : String
  imageUrl : String
  audioUrl : Option String
  caption : Option String
  duration : Option Int
deriving DecidableEq, Repr

/-- A JavaScript field value as it occurs in the `data` payload of an item:
a string, a number, a boolean, or one of the typed arrays that the canvas
uses (string arrays for tags/traits/options, checklist entries, metrics,
slides). -/
inductive JsValue where
  | vstr (s : String)
  | vnum (n : Int)
  | vbool (b : Bool)
  | varrS (xs : List String)
  | varrC (xs : List ChecklistEntry)
  | varrM (xs : List Metric)
  | varrSl (xs : List Slide)
deriving DecidableEq, Repr

/-- A JavaScript object: an association list of field name to value, in
insertion order. -/
abbrev JsObj := List (String × JsValue)

/-- Field read: `obj.k` (also `Object.prototype.hasOwnProperty` via
`isSome`). -/
def jsGet : JsObj → String → Option JsValue
  | [], _ => none
  | (k, v) :: rest, key => if k = key then some v else jsGet rest key

/-- `hasOwnProperty` check. -/
def jsHas (o : JsObj) (key : String) : Bool :=
  (jsGet o key).isSome

/-- Field write with JavaScript spread semantics: an existing key keeps its
position with the new value, a fresh key is appended at the end (this is
what a spread followed by a field override does). -/
def jsSet : JsObj → String → JsValue → JsObj
  | [], key, v => [(key, v)]
  | (k, v') :: rest, key, v =>
    if k = key then (k, v) :: rest else (k, v') :: jsSet rest key v

/-! ## Decimal rendering and parsing of JavaScript numbers -/

/-- Decimal digits of `n`, most significant first, with explicit fuel so the
definition is structural.  `natToDecAux (n+1) n` renders `n` when `n ≠ 0`. -/
def natToDecAux : Nat → Nat → List Char
  | 0, _ => []
  | fuel + 1, n =>
    if n = 0 then [] else natToDecAux fuel (n / 10) ++ [Char.ofNat (48 + n % 10)]

/-- Decimal rendering of a natural number (JavaScript `String(n)` for a
non-negative integer). -/
def natToDecChars (n : Nat) : List Char :=
  if n = 0 then ['0'] else natToDecAux (n + 1) n

/-- `String(n)` for a natural number. -/
def natToDecStr (n : Nat) : String :=
  ⟨natToDecChars n⟩

/-- `String(i)` for an integer. -/
def intToDecStr (i : Int) : String :=
  if i < 0 then "-" ++ natToDecStr i.natAbs else natToDecStr i.toNat

/-- `s.padStart(4, "0")`. -/
def padStart4Str (s : String) : String :=
  ⟨List.replicate (4 - s.data.length) '0' ++ s.data⟩

/-- `s.padStart(3, "0")`. -/
def padStart3Str (s : String) : String :=
  ⟨List.replicate (3 - s.data.length) '0' ++ s.data⟩

/-- `s.padStart(2, "0")`. -/
def padStart2Str (s : String) : String :=
  ⟨List.replicate (2 - s.data.length) '0' ++ s.data⟩

/-- Value of the maximal digit prefix of a character list; `none` when the
list does not start with a digit (this is how `parseInt` fails). -/
def parseDecDigits (cs : List Char) : Option Nat :=
  let ds := cs.takeWhile Char.isDigit
  if ds = [] then none
  else some (ds.foldl (fun a c => a * 10 + (c.toNat - 48)) 0)

/-- `Number.parseInt(s, 10)`: skip leading spaces, optional sign, then the
maximal decimal digit prefix; `none` models `NaN`. -/
def parseIntJs (s : String) : Option Int :=
  let cs := s.data.dropWhile (fun c => c = ' ')
  match cs with
  | [] => none
  | c :: rest =>
    if c = '-' then (parseDecDigits rest).map (fun n => -(n : Int))
    else if c = '+' then (parseDecDigits rest).map (fun n => (n : Int))
    else (parseDecDigits (c :: rest)).map (fun n => (n : Int))

/-- The numeric value of an item id as the engine reads it: parse as a
decimal integer, defaulting to `0`. -/
def idNumVal (s : String) : Int :=
  (parseIntJs s).getD 0

/-- JavaScript `s.trim()`: drop whitespace from both ends. -/
def jsTrim (s : String) : String :=
  ⟨((s.data.dropWhile Char.isWhitespace).reverse.dropWhile Char.isWhitespace).reverse⟩

/-- Does `s` match `/^\d+$/` (a bare non-negative integer string)? -/
def isAllDigits (s : String) : Bool :=
  !s.data.isEmpty && s.data.all Char.isDigit

/-- Value of an all-digits string (what `parseInt` returns on it). -/
def decStrToNat (s : String) : Nat :=
  s.data.foldl (fun a c => a * 10 + (c.toNat - 48)) 0

/-! ## Document model -/

/-- `Item` from `lib/canvas/types.ts`, with its `data` payload as a
JavaScript record. -/
structure Item where
  id : String
  type : CardType
  name : String
  subtitle : String
  data : JsObj
deriving DecidableEq, Repr

/-- `AgentState` from `lib/canvas/types.ts`. -/
structure AgentState where
  items : List Item
  globalTitle : String
  globalDescription : String
  lastAction : Option String
  itemsCreated : Int
deriving DecidableEq, Repr

/-- Modelled from the spec: `initialState` from `lib/canvas/state.ts` is not
among the sources; per the spec it is the canonical empty document (no
items, empty global fields, zero creation counter). -/
def initialState : AgentState :=
  { items := [], globalTitle := "", globalDescription := "",
    lastAction := none, itemsCreated := 0 }

/-- `defaultDataFor` from `page.tsx`: the default `data` payload per card
type. -/
def defaultDataFor : CardType → JsObj
  | CardType.character =>
    [("name", JsValue.vstr "New Character"),
     ("description", JsValue.vstr "A character waiting to be described..."),
     ("traits", JsValue.varrS ["adventurous"]),
     ("image_url", JsValue.vstr ""),
     ("source_comic", JsValue.vstr "")]
  | CardType.story =>
    [("title", JsValue.vstr ""), ("slides", JsValue.varrSl [])]
  | CardType.project =>
    [("field1", JsValue.vstr ""), ("field2", JsValue.vstr ""),
     ("field3", JsValue.vstr ""), ("field4", JsValue.varrC []),
     ("field4_id", JsValue.vnum 0)]
  | CardType.entity =>
    [("field1", JsValue.vstr ""), ("field2", JsValue.vstr ""),
     ("field3", JsValue.varrS []),
     ("field3_options", JsValue.varrS ["Tag 1", "Tag 2", "Tag 3"])]
  | CardType.note => [("field1", JsValue.vstr "")]
  | CardType.chart =>
    [("field1", JsValue.varrM []), ("field1_id", JsValue.vnum 0)]

/-- The partial item update passed to `updateItem` (`Partial<Item>` in the
source; only `name` and `subtitle` ever occur at call sites). -/
structure ItemPatch where
  name : Option String := none
  subtitle : Option String := none

/-- Spreading an `ItemPatch` over an item (`{ ...p, ...updates }`). -/
def applyPatch (p : Item) (u : ItemPatch) : Item :=
  { p with name := u.name.getD p.name, subtitle := u.subtitle.getD p.subtitle }

/-- `updateItem` from `page.tsx`: replace the fields of the item with the
given id; items with other ids are untouched. -/
def updateItem (doc : AgentState) (itemId : String) (u : ItemPatch) : AgentState :=
  { doc with items := doc.items.map (fun p => if p.id = itemId then applyPatch p u else p) }

/-- `updateItemData` from `page.tsx`: apply `f` to the `data` of the item
with the given id; items with other ids are untouched. -/
def updateItemData (doc : AgentState) (itemId : String) (f : JsObj → JsObj) : AgentState :=
  { doc with items := doc.items.map (fun p => if p.id = itemId then { p with data := f p.data } else p) }

/-- `deleteItem` from `page.tsx` (the state update): filter out the item and
record `lastAction`. -/
def deleteItemOp (doc : AgentState) (itemId : String) : AgentState :=
  let existed := doc.items.any (fun p => p.id = itemId)
  { doc with
    items := doc.items.filter (fun p => p.id ≠ itemId),
    lastAction := some (if existed then "deleted:" ++ itemId else "not_found:" ++ itemId) }

/-- The `deleteItem` Copilot action handler from `page.tsx`: performs the
deletion and returns the status string computed from the same snapshot. -/
def deleteItemHandler (doc : AgentState) (itemId : String) : AgentState × String :=
  let existed := doc.items.any (fun p => p.id = itemId)
  (deleteItemOp doc itemId,
   if existed then "deleted:" ++ itemId else "not_found:" ++ itemId)

/-- The reduction in `addItem` deriving the maximal numeric value among the
existing item ids (non-parsing ids are skipped; the accumulator starts at
`0`). -/
def maxExistingId (items : List Item) : Int :=
  items.foldl
    (fun m it =>
      match parseIntJs it.id with
      | some p => max m p
      | none => m)
    0

/-- The next item number derived in `addItem`:
`max(priorCount, maxExisting) + 1`.  (`itemsCreated` is an `Int` in the
model, so the `Number.isFinite` guard of the source is always satisfied.) -/
def nextItemNumber (doc : AgentState) : Int :=
  max doc.itemsCreated (maxExistingId doc.items) + 1

/-- The item literal built by `addItem`: trimmed name when non-empty, empty
subtitle, default data for the type. -/
def mkItem (id : String) (t : CardType) (name : Option String) : Item :=
  { id := id, type := t,
    name := match name with
      | some s => if jsTrim s ≠ "" then jsTrim s else ""
      | none => "",
    subtitle := "", data := defaultDataFor t }

/-- `addItem` from `page.tsx`: allocate the next id, append the new item,
bump `itemsCreated`, record `lastAction`, and return the created id. -/
def addItem (doc : AgentState) (t : CardType) (name : Option String) : AgentState × String :=
  let nextNumber := nextItemNumber doc
  let createdId := padStart4Str (intToDecStr nextNumber)
  ({ doc with
      items := doc.items ++ [mkItem createdId t name],
      itemsCreated := nextNumber,
      lastAction := some ("created:" ++ createdId) },
   createdId)

/-! ## Per-item field updaters (the closures passed to `updateItemData`) -/

/-- `setNoteField1` updater: guarded by `hasOwnProperty("field1")`. -/
def setNoteField1Updater (value : String) (prev : JsObj) : JsObj :=
  if jsHas prev "field1" then jsSet prev "field1" (JsValue.vstr value) else prev

/-- `setProjectField1` updater: guarded by `typeof field1 === "string"`. -/
def setProjectField1Updater (value : String) (prev : JsObj) : JsObj :=
  match jsGet prev "field1" with
  | some (JsValue.vstr _) => jsSet prev "field1" (JsValue.vstr value)
  | _ => prev

/-- `setProjectField2` updater: guarded by `typeof field2 === "string"`. -/
def setProjectField2Updater (value : String) (prev : JsObj) : JsObj :=
  match jsGet prev "field2" with
  | some (JsValue.vstr _) => jsSet prev "field2" (JsValue.vstr value)
  | _ => prev

/-- `setEntityField1` updater: guarded by `typeof field1 === "string"`. -/
def setEntityField1Updater (value : String) (prev : JsObj) : JsObj :=
  match jsGet prev "field1" with
  | some (JsValue.vstr _) => jsSet prev "field1" (JsValue.vstr value)
  | _ => prev

/-- `setEntityField2` updater: guarded by `typeof field2 === "string"`. -/
def setEntityField2Updater (value : String) (prev : JsObj) : JsObj :=
  match jsGet prev "field2" with
  | some (JsValue.vstr _) => jsSet prev "field2" (JsValue.vstr value)
  | _ => prev

/-- The store step of `setProjectField3`: guarded by
`typeof field3 === "string"`. -/
def field3Updater (v : String) (prev : JsObj) : JsObj :=
  match jsGet prev "field3" with
  | some (JsValue.vstr _) => jsSet prev "field3" (JsValue.vstr v)
  | _ => prev

/-- `setCharacterName` updater: guarded by `hasOwnProperty("name")`. -/
def setCharacterNameUpdater (name : String) (prev : JsObj) : JsObj :=
  if jsHas prev "name" then jsSet prev "name" (JsValue.vstr name) else prev

/-- `setCharacterDescription` updater: guarded by
`hasOwnProperty("description")`. -/
def setCharacterDescriptionUpdater (description : String) (prev : JsObj) : JsObj :=
  if jsHas prev "description" then jsSet prev "description" (JsValue.vstr description)
  else prev

/-- `setCharacterImageUrl` updater: guarded by `hasOwnProperty("image_url")`. -/
def setCharacterImageUrlUpdater (url : String) (prev : JsObj) : JsObj :=
  if jsHas prev "image_url" then jsSet prev "image_url" (JsValue.vstr url) else prev

/-- `setCharacterSourceComic` updater: guarded by
`hasOwnProperty("source_comic")`. -/
def setCharacterSourceComicUpdater (source : String) (prev : JsObj) : JsObj :=
  if jsHas prev "source_comic" then jsSet prev "source_comic" (JsValue.vstr source)
  else prev

/-- `addCharacterTrait` updater: guarded by `hasOwnProperty("traits")`; the
trait is appended when absent.  A `traits` key holding anything but a string
array cannot arise from the engine (JavaScript would fail on it); the model
leaves the data unchanged there. -/
def addCharacterTraitUpdater (trait : String) (prev : JsObj) : JsObj :=
  match jsGet prev "traits" with
  | some (JsValue.varrS ts) =>
    if trait ∈ ts then prev else jsSet prev "traits" (JsValue.varrS (ts ++ [trait]))
  | _ => prev

/-- `setStoryTitle` updater: guarded by `hasOwnProperty("title")`. -/
def setStoryTitleUpdater (title : String) (prev : JsObj) : JsObj :=
  if jsHas prev "title" then jsSet prev "title" (JsValue.vstr title) else prev

/-- `addStorySlide` updater: guarded by `hasOwnProperty("slides")`; the
slide id comes from the wall clock (`slide-` followed by `Date.now()`) and
the duration defaults to 8.  A `slides` key holding anything but a slide
array cannot arise from the engine; the model leaves the data unchanged
there. -/
def addStorySlideUpdater (now : Nat) (caption : String) (duration : Option Int) (prev : JsObj) : JsObj :=
  match jsGet prev "slides" with
  | some (JsValue.varrSl l) =>
    jsSet prev "slides" (JsValue.varrSl (l ++
      [{ id := "slide-" ++ natToDecStr now, imageUrl := "", audioUrl := some "",
         caption := some caption, duration := some (duration.getD 8) }]))
  | _ => prev

/-- `setStorySlideCaption` updater: guarded by `hasOwnProperty("slides")`. -/
def setStorySlideCaptionUpdater (slideId caption : String) (prev : JsObj) : JsObj :=
  match jsGet prev "slides" with
  | some (JsValue.varrSl l) =>
    jsSet prev "slides" (JsValue.varrSl
      (l.map (fun s => if s.id = slideId then { s with caption := some caption } else s)))
  | _ => prev

/-- `setStorySlideDuration` updater: guarded by `hasOwnProperty("slides")`. -/
def setStorySlideDurationUpdater (slideId : String) (duration : Int) (prev : JsObj) : JsObj :=
  match jsGet prev "slides" with
  | some (JsValue.varrSl l) =>
    jsSet prev "slides" (JsValue.varrSl
      (l.map (fun s => if s.id = slideId then { s with duration := some duration } else s)))
  | _ => prev

/-- `removeStorySlide` updater: guarded by `hasOwnProperty("slides")`. -/
def removeStorySlideUpdater (slideId : String) (prev : JsObj) : JsObj :=
  match jsGet prev "slides" with
  | some (JsValue.varrSl l) =>
    jsSet prev "slides" (JsValue.varrSl (l.filter (fun s => s.id ≠ slideId)))
  | _ => prev

/-- First-occurrence deduplication, as performed by building a JavaScript
`Set` from a list and converting back (insertion order kept). -/
def dedupAux (seen : List String) : List String → List String
  | [] => []
  | x :: rest =>
    if x ∈ seen then dedupAux seen rest else x :: dedupAux (seen ++ [x]) rest

/-- `Array.from(new Set(xs))`. -/
def dedupKeepFirst (xs : List String) : List String :=
  dedupAux [] xs

/-- `new Set(xs); set.add(tag); Array.from(set)`. -/
def setAdd (xs : List String) (tag : String) : List String :=
  let d := dedupKeepFirst xs
  if tag ∈ d then d else d ++ [tag]

/-- `addEntityField3` updater.  NOTE: unlike the other setters this handler
has no structural guard: it builds a `Set` from `field3 ?? []` and writes
the resulting array back, so a missing `field3` key is created and a string
`field3` (a project date) is exploded into its characters.  A `field3` key
holding a number/boolean/non-string array cannot arise from the engine
(JavaScript would fail to iterate it); the model leaves the data unchanged
there. -/
def addEntityField3Updater (tag : String) (prev : JsObj) : JsObj :=
  match jsGet prev "field3" with
  | some (JsValue.varrS xs) => jsSet prev "field3" (JsValue.varrS (setAdd xs tag))
  | some (JsValue.vstr s) =>
    jsSet prev "field3" (JsValue.varrS (setAdd (s.data.map (fun c => String.mk [c])) tag))
  | none => jsSet prev "field3" (JsValue.varrS (setAdd [] tag))
  | _ => prev

/-- `removeEntityField3` updater: filters `field3 ?? []`, again without a
structural guard, so a missing `field3` key becomes an empty array.  (On a
string `field3` JavaScript would fail, since strings have no `filter`; the
model leaves the data unchanged there.) -/
def removeEntityField3Updater (tag : String) (prev : JsObj) : JsObj :=
  match jsGet prev "field3" with
  | some (JsValue.varrS xs) =>
    jsSet prev "field3" (JsValue.varrS (xs.filter (fun t => t ≠ tag)))
  | none => jsSet prev "field3" (JsValue.varrS [])
  | _ => prev

/-! ## Checklist and metric functions

The bodies of `projectSetField4ItemText`, `projectSetField4ItemDone`,
`projectRemoveField4Item`, `chartAddField1Metric`, `chartSetField1Value`
and `chartRemoveField1Metric` live in `lib/canvas/updates.ts`, which is not
among the sources; they are modelled from the specification. -/

/-- Modelled from the spec: `projectSetField4ItemText` from
`lib/canvas/updates.ts` (absent from the sources).  Per spec section 4.3 it
sets the text of the checklist entry whose id matches and returns the data
unchanged when no entry matches. -/
def projectSetField4ItemText (data : JsObj) (targetId text : String) : JsObj :=
  match jsGet data "field4" with
  | some (JsValue.varrC l) =>
    jsSet data "field4" (JsValue.varrC
      (l.map (fun c => if c.id = targetId then { c with text := text } else c)))
  | _ => data

/-- Modelled from the spec: `projectSetField4ItemDone` from
`lib/canvas/updates.ts` (absent from the sources).  Per spec section 4.3 it
sets the done flag of the checklist entry whose id matches and returns the
data unchanged when no entry matches. -/
def projectSetField4ItemDone (data : JsObj) (targetId : String) (done : Bool) : JsObj :=
  match jsGet data "field4" with
  | some (JsValue.varrC l) =>
    jsSet data "field4" (JsValue.varrC
      (l.map (fun c => if c.id = targetId then { c with done := done } else c)))
  | _ => data

/-- Modelled from the spec: `projectRemoveField4Item` from
`lib/canvas/updates.ts` (absent from the sources).  Per spec section 4.3 it
filters out the entry with the matching id; no-op if absent. -/
def projectRemoveField4Item (data : JsObj) (targetId : String) : JsObj :=
  match jsGet data "field4" with
  | some (JsValue.varrC l) =>
    jsSet data "field4" (JsValue.varrC (l.filter (fun c => c.id ≠ targetId)))
  | _ => data

/-- Clamp a metric value to `[0, 100]`. -/
def clampMetric (v : Int) : Int :=
  max 0 (min 100 v)

/-- Modelled from the spec: `chartAddField1Metric` from
`lib/canvas/updates.ts` (absent from the sources).  Per spec sections 4.2
and 4.3 it appends a metric with the trimmed label (or empty string), the
clamped value (or the unset marker), an id allocated by the per-chart
max-then-increment pattern on `field1_id`, and the bumped counter. -/
def chartAddField1Metric (data : JsObj) (label : Option String) (value : Option Int) : JsObj × String :=
  match jsGet data "field1", jsGet data "field1_id" with
  | some (JsValue.varrM l), some (JsValue.vnum c) =>
    let maxExisting := l.foldl
      (fun m mt =>
        match parseIntJs mt.id with
        | some p => max m p
        | none => m)
      0
    let n := max c maxExisting + 1
    let newId := padStart3Str (intToDecStr n)
    let metric : Metric :=
      { id := newId, label := jsTrim (label.getD ""),
        value := match value with
          | some v => MetricValue.num (clampMetric v)
          | none => MetricValue.unset }
    ((jsSet (jsSet data "field1" (JsValue.varrM (l ++ [metric])))
        "field1_id" (JsValue.vnum n)), newId)
  | _, _ => (data, "")

/-- Modelled from the spec: `chartSetField1Value` from
`lib/canvas/updates.ts` (absent from the sources).  Per spec section 4.3 a
numeric value is clamped to `[0, 100]`, the clear operation stores the
unset marker, and an out-of-bounds index is a no-op. -/
def chartSetField1Value (data : JsObj) (index : Nat) (value : MetricValue) : JsObj :=
  match jsGet data "field1" with
  | some (JsValue.varrM l) =>
    match l.get? index with
    | some mt =>
      jsSet data "field1" (JsValue.varrM
        (l.set index { mt with
          value := match value with
            | MetricValue.num v => MetricValue.num (clampMetric v)
            | MetricValue.unset => MetricValue.unset }))
    | none => data
  | _ => data

/-- Modelled from the spec: `chartRemoveField1Metric` from
`lib/canvas/updates.ts` (absent from the sources).  Per spec section 4.3 it
removes the entry at the index; no-op if out of bounds. -/
def chartRemoveField1Metric (data : JsObj) (index : Nat) : JsObj :=
  match jsGet data "field1" with
  | some (JsValue.varrM l) =>
    if index < l.length then jsSet data "field1" (JsValue.varrM (l.eraseIdx index))
    else data
  | _ => data

/-! ## Document-level command handlers -/

/-- `setItemName` handler. -/
def setItemNameHandler (doc : AgentState) (name itemId : String) : AgentState :=
  updateItem doc itemId { name := some name }

/-- `setItemSubtitleOrDescription` handler. -/
def setItemSubtitleHandler (doc : AgentState) (subtitle itemId : String) : AgentState :=
  updateItem doc itemId { subtitle := some subtitle }

/-- `setNoteField1` handler. -/
def setNoteField1Handler (doc : AgentState) (value itemId : String) : AgentState :=
  updateItemData doc itemId (setNoteField1Updater value)

/-- `setProjectField1` handler. -/
def setProjectField1Handler (doc : AgentState) (value itemId : String) : AgentState :=
  updateItemData doc itemId (setProjectField1Updater value)

/-- `setEntityField1` handler. -/
def setEntityField1Handler (doc : AgentState) (value itemId : String) : AgentState :=
  updateItemData doc itemId (setEntityField1Updater value)

/-- `setEntityField2` handler. -/
def setEntityField2Handler (doc : AgentState) (value itemId : String) : AgentState :=
  updateItemData doc itemId (setEntityField2Updater value)

/-- `setCharacterName` handler. -/
def setCharacterNameHandler (doc : AgentState) (name itemId : String) : AgentState :=
  updateItemData doc itemId (setCharacterNameUpdater name)

/-- `setCharacterDescription` handler. -/
def setCharacterDescriptionHandler (doc : AgentState) (description itemId : String) : AgentState :=
  updateItemData doc itemId (setCharacterDescriptionUpdater description)

/-- `setCharacterImageUrl` handler. -/
def setCharacterImageUrlHandler (doc : AgentState) (url itemId : String) : AgentState :=
  updateItemData doc itemId (setCharacterImageUrlUpdater url)

/-- `setCharacterSourceComic` handler. -/
def setCharacterSourceComicHandler (doc : AgentState) (source itemId : String) : AgentState :=
  updateItemData doc itemId (setCharacterSourceComicUpdater source)

/-- `addCharacterTrait` handler. -/
def addCharacterTraitHandler (doc : AgentState) (trait itemId : String) : AgentState :=
  updateItemData doc itemId (addCharacterTraitUpdater trait)

/-- `setStoryTitle` handler. -/
def setStoryTitleHandler (doc : AgentState) (title itemId : String) : AgentState :=
  updateItemData doc itemId (setStoryTitleUpdater title)

/-- `addStorySlide` handler. -/
def addStorySlideHandler (doc : AgentState) (now : Nat) (itemId caption : String)
    (duration : Option Int) : AgentState :=
  updateItemData doc itemId (addStorySlideUpdater now caption duration)

/-- `setStorySlideCaption` handler. -/
def setStorySlideCaptionHandler (doc : AgentState) (itemId slideId caption : String) : AgentState :=
  updateItemData doc itemId (setStorySlideCaptionUpdater slideId caption)

/-- `setStorySlideDuration` handler. -/
def setStorySlideDurationHandler (doc : AgentState) (itemId slideId : String)
    (duration : Int) : AgentState :=
  updateItemData doc itemId (setStorySlideDurationUpdater slideId duration)

/-- `removeStorySlide` handler. -/
def removeStorySlideHandler (doc : AgentState) (itemId slideId : String) : AgentState :=
  updateItemData doc itemId (removeStorySlideUpdater slideId)

/-- `addEntityField3` handler. -/
def addEntityField3Handler (doc : AgentState) (tag itemId : String) : AgentState :=
  updateItemData doc itemId (addEntityField3Updater tag)

/-- `removeEntityField3` handler. -/
def removeEntityField3Handler (doc : AgentState) (tag itemId : String) : AgentState :=
  updateItemData doc itemId (removeEntityField3Updater tag)

/-- `removeProjectChecklistItem` handler. -/
def removeProjectChecklistItemHandler (doc : AgentState) (itemId checklistItemId : String) : AgentState :=
  updateItemData doc itemId (fun prev => projectRemoveField4Item prev checklistItemId)

/-- `setChartField1Value` handler. -/
def setChartField1ValueHandler (doc : AgentState) (itemId : String) (index : Nat)
    (value : Int) : AgentState :=
  updateItemData doc itemId (fun prev => chartSetField1Value prev index (MetricValue.num value))

/-- `clearChartField1Value` handler: stores the unset marker (the source
passes the empty string). -/
def clearChartField1ValueHandler (doc : AgentState) (itemId : String) (index : Nat) : AgentState :=
  updateItemData doc itemId (fun prev => chartSetField1Value prev index MetricValue.unset)

/-- `removeChartField1` handler. -/
def removeChartField1Handler (doc : AgentState) (itemId : String) (index : Nat) : AgentState :=
  updateItemData doc itemId (fun prev => chartRemoveField1Metric prev index)

/-! ## Checklist target resolution (`setProjectChecklistItem`) -/

/-- The id-resolution step of the `setProjectChecklistItem` handler: an
exact id match wins; otherwise a bare numeric identifier is reinterpreted
as a 0-based index and, failing that, as a 1-based index. -/
def resolveChecklistTarget (l : List ChecklistEntry) (tid : String) : String :=
  if l.any (fun c => c.id = tid) then tid
  else if isAllDigits tid then
    let n := decStrToNat tid
    if h : n < l.length then (l.get ⟨n, h⟩).id
    else if h' : 0 < n ∧ n - 1 < l.length then (l.get ⟨n - 1, h'.2⟩).id
    else tid
  else tid

/-- The data updater of the `setProjectChecklistItem` handler: read the
checklist, resolve the target id, then apply the optional text and done
updates in order. -/
def checklistUpdate (tid : String) (text : Option String) (done : Option Bool)
    (prev : JsObj) : JsObj :=
  let l := match jsGet prev "field4" with
    | some (JsValue.varrC l) => l
    | _ => []
  let targetId := resolveChecklistTarget l tid
  let d1 := match text with
    | some s => projectSetField4ItemText prev targetId s
    | none => prev
  match done with
  | some b => projectSetField4ItemDone d1 targetId b
  | none => d1

/-- `setProjectChecklistItem` handler. -/
def setProjectChecklistItemHandler (doc : AgentState) (itemId checklistItemId : String)
    (text : Option String) (done : Option Bool) : AgentState :=
  updateItemData doc itemId (checklistUpdate checklistItemId text done)

/-! ## Date normalization (`setProjectField3`) -/

/-- UTC calendar fields of a parsed date, as read back by
`getUTCFullYear` / `getUTCMonth() + 1` / `getUTCDate`. -/
structure UTCDate where
  year : Int
  month : Nat
  day : Nat
deriving DecidableEq, Repr

/-- The `YYYY-MM-DD` rendering of UTC calendar fields used by
`normalizeDate`. -/
def formatUTCDate (d : UTCDate) : String :=
  intToDecStr d.year ++ "-" ++ padStart2Str (natToDecStr d.month) ++ "-" ++
    padStart2Str (natToDecStr d.day)

/-- The regex test of `normalizeDate`:
four digits, dash, two digits, dash, two digits. -/
def isISODateShape (s : String) : Bool :=
  match s.data with
  | [a, b, c, d, e, f, g, h, i, j] =>
    a.isDigit && b.isDigit && c.isDigit && d.isDigit && e = '-' &&
      f.isDigit && g.isDigit && h = '-' && i.isDigit && j.isDigit
  | _ => false

/-- `normalizeDate` from the `setProjectField3` handler, parameterized over
the JavaScript `new Date(string)` parser (`parse` returning `none` models
an invalid date).  A string already in ISO shape is kept verbatim; any
other parseable input is reformatted from its UTC calendar fields; `none`
models the rejected update.  (The `instanceof Date` branch of the source
cannot trigger for the string arguments the agent sends.) -/
def normalizeDate (parse : String → Option UTCDate) (input : Option String) : Option String :=
  match input with
  | none => none
  | some s => if isISODateShape s then some s else (parse s).map formatUTCDate

/-- `setProjectField3` handler: a failed normalization returns without
touching the document. -/
def setProjectField3Handler (parse : String → Option UTCDate) (doc : AgentState)
    (itemId : String) (raw : Option String) : AgentState :=
  match normalizeDate parse raw with
  | none => doc
  | some v => updateItemData doc itemId (field3Updater v)

/-! ## Idempotency / throttle guard for item creation (`createItem`) -/

/-- The `lastCreationRef` record: the most recent creation's type,
normalized name, created id and timestamp. -/
structure LastCreation where
  type : CardType
  name : String
  id : String
  ts : Nat
deriving DecidableEq, Repr

/-- The state the `createItem` handler works over: the shared document plus
the throttle ref. -/
structure CreateEnv where
  doc : AgentState
  lastCreation : Option LastCreation
deriving DecidableEq, Repr

/-- The throttle test of the `createItem` handler: the cached id is reused
when the last creation has identical type and normalized name and happened
less than 5000 ms ago. -/
def throttleHit (last : Option LastCreation) (now : Nat) (t : CardType)
    (normalized : String) : Option String :=
  match last with
  | some recent =>
    if recent.type = t ∧ recent.name = normalized ∧ now - recent.ts < 5000 then
      some recent.id
    else none
  | none => none

/-- The `createItem` Copilot action handler from `page.tsx`:
name-based idempotency (for a non-empty normalized name) first, then the
5-second throttle, then the actual `addItem`. -/
def createItemHandler (env : CreateEnv) (now : Nat) (t : CardType)
    (name : Option String) : CreateEnv × String :=
  let normalized := jsTrim (name.getD "")
  let dup := if normalized = "" then none
    else env.doc.items.find? (fun it => it.type = t ∧ jsTrim it.name = normalized)
  match dup with
  | some existing => (env, existing.id)
  | none =>
    match throttleHit env.lastCreation now t normalized with
    | some cachedId => (env, cachedId)
    | none =>
      let r := addItem env.doc t name
      ({ doc := r.1, lastCreation := some ⟨t, normalized, r.2, now⟩ }, r.2)

/-! ## Idempotency / throttle guard for metric creation (`addChartField1`) -/

/-- The per-chart `lastMetricCreationRef` record. -/
structure MetricCreation where
  label : String
  value : MetricValue
  id : String
  ts : Nat
deriving DecidableEq, Repr

/-- Lookup in the keyed throttle ref (a JavaScript record keyed by item
id). -/
def lookupRef {α : Type} : List (String × α) → String → Option α
  | [], _ => none
  | (k, v) :: rest, key => if k = key then some v else lookupRef rest key

/-- Store in the keyed throttle ref. -/
def storeRef {α : Type} : List (String × α) → String → α → List (String × α)
  | [], key, v => [(key, v)]
  | (k, v') :: rest, key, v =>
    if k = key then (k, v) :: rest else (k, v') :: storeRef rest key v

/-- The state the `addChartField1` handler works over. -/
structure ChartEnv where
  doc : AgentState
  lastMetricCreation : List (String × MetricCreation)
deriving DecidableEq, Repr

/-- The `addChartField1` Copilot action handler from `page.tsx`:
label-based idempotency on the target chart, then a 0.8-second per-chart
throttle, then the actual `chartAddField1Metric`. -/
def addChartField1Handler (env : ChartEnv) (now : Nat) (itemId : String)
    (label : Option String) (value : Option Int) : ChartEnv × String :=
  let normLabel := jsTrim (label.getD "")
  let dup :=
    match env.doc.items.find? (fun (it : Item) => it.id = itemId) with
    | some item =>
      if item.type = CardType.chart then
        match jsGet item.data "field1" with
        | some (JsValue.varrM l) =>
          if normLabel ≠ "" then l.find? (fun (m : Metric) => jsTrim m.label = normLabel) else none
        | _ => none
      else none
    | none => none
  match dup with
  | some m => (env, m.id)
  | none =>
    let valKey : MetricValue := match value with
      | some v => MetricValue.num (clampMetric v)
      | none => MetricValue.unset
    let throttled :=
      match lookupRef env.lastMetricCreation itemId with
      | some recent =>
        if recent.label = normLabel ∧ recent.value = valKey ∧ now - recent.ts < 800 then
          some recent.id
        else none
      | none => none
    match throttled with
    | some cachedId => (env, cachedId)
    | none =>
      let created :=
        match env.doc.items.find? (fun (it : Item) => it.id = itemId) with
        | some item => (chartAddField1Metric item.data label value).2
        | none => ""
      let doc' := updateItemData env.doc itemId
        (fun prev => (chartAddField1Metric prev label value).1)
      ({ doc := doc',
         lastMetricCreation := storeRef env.lastMetricCreation itemId
           ⟨normLabel, valKey, created, now⟩ }, created)

/-! ## Operation sequences (for the reachability invariants) -/

/-- A document-level operation: item creation or deletion. -/
inductive CanvasOp where
  | createOp (t : CardType) (name : Option String)
  | deleteOp (id : String)
deriving DecidableEq, Repr

/-- One step of the document under an operation. -/
def applyOp (doc : AgentState) : CanvasOp → AgentState
  | CanvasOp.createOp t name => (addItem doc t name).1
  | CanvasOp.deleteOp i => deleteItemOp doc i

/-- Run a sequence of operations. -/
def runOps (doc : AgentState) : List CanvasOp → AgentState :=
  List.foldl applyOp doc

/-- The numbers allocated by the create operations of a run, in order. -/
def allocTrace (doc : AgentState) : List CanvasOp → List Int
  | [] => []
  | CanvasOp.createOp t name :: rest =>
    nextItemNumber doc :: allocTrace (applyOp doc (CanvasOp.createOp t name)) rest
  | CanvasOp.deleteOp i :: rest =>
    allocTrace (applyOp doc (CanvasOp.deleteOp i)) rest

/-- The reachability invariant of documents produced by the engine from the
empty document: the counter is non-negative, every item id is the 4-digit
padded decimal rendering of a positive number bounded by the counter, and
ids are pairwise distinct. -/
def GoodDoc (doc : AgentState) : Prop :=
  0 ≤ doc.itemsCreated ∧
  (∀ it ∈ doc.items, ∃ n : Nat, 1 ≤ n ∧ (n : Int) ≤ doc.itemsCreated ∧
    it.id = padStart4Str (natToDecStr n)) ∧
  doc.items.Pairwise (fun a b => a.id ≠ b.id)

/-! ## Lemmas: decimal rendering round-trips through `parseIntJs` -/

theorem charOfDigit_toNat {r : Nat} (h : r < 10) : (Char.ofNat (48 + r)).toNat = 48 + r := by
  interval_cases r <;> decide

theorem charOfDigit_isDigit {r : Nat} (h : r < 10) : (Char.ofNat (48 + r)).isDigit = true := by
  interval_cases r <;> decide

theorem natToDecAux_digits :
    ∀ fuel n, ∀ c ∈ natToDecAux fuel n, c.isDigit = true := by
  intro fuel
  induction fuel with
  | zero => intro n c hc; simp [natToDecAux] at hc
  | succ f ih =>
    intro n c hc
    by_cases hn : n = 0
    · simp [natToDecAux, hn] at hc
    · simp only [natToDecAux, if_neg hn, List.mem_append, List.mem_singleton] at hc
      rcases hc with hc | hc
      · exact ih _ c hc
      · subst hc; exact charOfDigit_isDigit (Nat.mod_lt _ (by norm_num))

theorem natToDecChars_digits (n : Nat) : ∀ c ∈ natToDecChars n, c.isDigit = true := by
  intro c hc
  by_cases hn : n = 0
  · simp [natToDecChars, hn] at hc; subst hc; decide
  · simp only [natToDecChars, if_neg hn] at hc
    exact natToDecAux_digits _ _ c hc

theorem natToDecChars_ne_nil (n : Nat) : natToDecChars n ≠ [] := by
  by_cases hn : n = 0
  · simp [natToDecChars, hn]
  · simp only [natToDecChars, if_neg hn]
    cases hf : natToDecAux (n + 1) n with
    | nil =>
      exfalso
      simp only [natToDecAux, if_neg hn] at hf
      exact absurd hf (by simp)
    | cons a l => simp

theorem natToDecAux_val :
    ∀ fuel n, n < fuel →
      (natToDecAux fuel n).foldl (fun a c => a * 10 + (c.toNat - 48)) 0 = n := by
  intro fuel
  induction fuel with
  | zero => intro n h; omega
  | succ f ih =>
    intro n h
    by_cases hn : n = 0
    · simp [natToDecAux, hn]
    · have hdiv : n / 10 < f := by
        have h1 : n / 10 < n := Nat.div_lt_self (Nat.pos_of_ne_zero hn) (by norm_num)
        omega
      simp only [natToDecAux, if_neg hn, List.foldl_append, ih _ hdiv, List.foldl_cons,
        List.foldl_nil]
      rw [charOfDigit_toNat (Nat.mod_lt _ (by norm_num))]
      omega

theorem natToDecChars_val (n : Nat) :
    (natToDecChars n).foldl (fun a c => a * 10 + (c.toNat - 48)) 0 = n := by
  by_cases hn : n = 0
  · simp [natToDecChars, hn]
  · simp only [natToDecChars, if_neg hn]
    exact natToDecAux_val _ _ (Nat.lt_succ_self n)

theorem foldl_val_replicate_zero (k : Nat) :
    (List.replicate k '0').foldl (fun a c => a * 10 + (c.toNat - 48)) 0 = 0 := by
  induction k with
  | zero => rfl
  | succ m ih => simpa [List.replicate_succ] using ih

theorem takeWhile_eq_self_of_all {p : Char → Bool} :
    ∀ {l : List Char}, (∀ c ∈ l, p c = true) → l.takeWhile p = l := by
  intro l
  induction l with
  | nil => intro _; rfl
  | cons a t ih =>
    intro h
    have ha : p a = true := h a (List.mem_cons_self _ _)
    simp only [List.takeWhile_cons, ha, if_true]
    exact congrArg (a :: ·) (ih (fun c hc => h c (List.mem_cons_of_mem _ hc)))

theorem parseDecDigits_of_digits {cs : List Char} (hne : cs ≠ [])
    (hd : ∀ c ∈ cs, c.isDigit = true) :
    parseDecDigits cs = some (cs.foldl (fun a c => a * 10 + (c.toNat - 48)) 0) := by
  unfold parseDecDigits
  rw [takeWhile_eq_self_of_all hd]
  simp [hne]

theorem parseIntJs_pad4 (n : Nat) :
    parseIntJs (padStart4Str (natToDecStr n)) = some (n : Int) := by
  have hdata : (padStart4Str (natToDecStr n)).data =
      List.replicate (4 - (natToDecChars n).length) '0' ++ natToDecChars n := rfl
  have hall : ∀ c ∈ (padStart4Str (natToDecStr n)).data, c.isDigit = true := by
    rw [hdata]
    intro c hc
    rcases List.mem_append.mp hc with hc | hc
    · have := List.eq_of_mem_replicate hc
      subst this; decide
    · exact natToDecChars_digits n c hc
  have hne : (padStart4Str (natToDecStr n)).data ≠ [] := by
    rw [hdata]
    intro hcontra
    exact natToDecChars_ne_nil n (List.append_eq_nil.mp hcontra).2
  unfold parseIntJs
  have hdrop : (padStart4Str (natToDecStr n)).data.dropWhile (fun c => c = ' ') =
      (padStart4Str (natToDecStr n)).data := by
    cases hl : (padStart4Str (natToDecStr n)).data with
    | nil => rfl
    | cons a t =>
      have ha : a.isDigit = true := by
        apply hall; rw [hl]; exact List.mem_cons_self _ _
      have : ¬ (a = ' ') := by
        intro heq; subst heq; exact absurd ha (by decide)
      simp [List.dropWhile_cons, this]
  rw [hdrop]
  cases hl : (padStart4Str (natToDecStr n)).data with
  | nil => exact absurd hl hne
  | cons a t =>
    have ha : a.isDigit = true := by
      apply hall; rw [hl]; exact List.mem_cons_self _ _
    have hminus : ¬ (a = '-') := by
      intro heq; subst heq; exact absurd ha (by decide)
    have hplus : ¬ (a = '+') := by
      intro heq; subst heq; exact absurd ha (by decide)
    simp only [if_neg hminus, if_neg hplus]
    have hvals : (a :: t).foldl (fun a c => a * 10 + (c.toNat - 48)) 0 = n := by
      have : (a :: t) = List.replicate (4 - (natToDecChars n).length) '0' ++ natToDecChars n := by
        rw [← hl, hdata]
      rw [this, List.foldl_append, foldl_val_replicate_zero, natToDecChars_val]
    rw [parseDecDigits_of_digits (by simp) (fun c hc => hall c (hl ▸ hc))]
    simp [hvals]

theorem pad4_natToDec_inj {n m : Nat}
    (h : padStart4Str (natToDecStr n) = padStart4Str (natToDecStr m)) : n = m := by
  have h1 := parseIntJs_pad4 n
  have h2 := parseIntJs_pad4 m
  rw [h] at h1
  rw [h1] at h2
  exact_mod_cast Option.some.inj h2

theorem idNumVal_pad4 (n : Nat) : idNumVal (padStart4Str (natToDecStr n)) = (n : Int) := by
  simp [idNumVal, parseIntJs_pad4]

theorem intToDecStr_nonneg {i : Int} (h : 0 ≤ i) : intToDecStr i = natToDecStr i.toNat := by
  simp [intToDecStr, not_lt.mpr h]

/-! ## Lemmas: the id allocation agrees with the spec's formula -/

/-- The spec's wording of the id source (b): the maximum over existing
items of their id parsed as a decimal integer, with non-numeric or missing
ids contributing 0 (and 0 when there are no items at all). -/
def specMaxExistingId (items : List Item) : Int :=
  match items.map (fun it => idNumVal it.id) with
  | [] => 0
  | v :: vs => vs.foldl max v

/-- The spec's next-id formula: `max(counterValue, maxExistingId) + 1`. -/
def specNextItemNumber (doc : AgentState) : Int :=
  max doc.itemsCreated (specMaxExistingId doc.items) + 1

theorem foldl_max_init (l : List Int) :
    ∀ x y : Int, l.foldl max (max x y) = max x (l.foldl max y) := by
  induction l with
  | nil => intro x y; rfl
  | cons a t ih =>
    intro x y
    simp only [List.foldl_cons, max_assoc]
    exact ih x (max y a)

theorem code_fold_eq_contrib_fold (items : List Item) :
    ∀ m : Int, 0 ≤ m →
      items.foldl
        (fun m it =>
          match parseIntJs it.id with
          | some p => max m p
          | none => m)
        m
      = items.foldl (fun m it => max m (idNumVal it.id)) m := by
  induction items with
  | nil => intro m _; rfl
  | cons it rest ih =>
    intro m hm
    simp only [List.foldl_cons]
    cases hp : parseIntJs it.id with
    | some p =>
      have : idNumVal it.id = p := by simp [idNumVal, hp]
      rw [this]
      exact ih _ (le_trans hm (le_max_left _ _))
    | none =>
      have : idNumVal it.id = 0 := by simp [idNumVal, hp]
      rw [this, max_eq_left hm]
      exact ih _ hm

theorem max_maxExistingId_eq_spec {c : Int} (hc : 0 ≤ c) (items : List Item) :
    max c (maxExistingId items) = max c (specMaxExistingId items) := by
  unfold maxExistingId
  rw [code_fold_eq_contrib_fold items 0 le_rfl,
    show items.foldl (fun m it => max m (idNumVal it.id)) 0 =
      (items.map (fun it => idNumVal it.id)).foldl max 0 from (List.foldl_map _ _ _ _).symm]
  cases hvs : items.map (fun it => idNumVal it.id) with
  | nil => simp [specMaxExistingId, hvs]
  | cons v vs =>
    simp only [specMaxExistingId, hvs, List.foldl_cons]
    have h0 : max (0 : Int) v = max 0 v := rfl
    rw [show (max (0 : Int) v) = max 0 v from rfl, foldl_max_init vs 0 v, ← max_assoc,
      max_eq_left hc]

theorem nextItemNumber_eq_spec {doc : AgentState} (h : 0 ≤ doc.itemsCreated) :
    nextItemNumber doc = specNextItemNumber doc := by
  unfold nextItemNumber specNextItemNumber
  rw [max_maxExistingId_eq_spec h]

/-! ## Lemmas: updates targeting an absent item do nothing -/

theorem map_ite_no_match {l : List Item} {itemId : String} (g : Item → Item)
    (h : ∀ p ∈ l, p.id ≠ itemId) :
    (l.map fun p => if p.id = itemId then g p else p) = l := by
  induction l with
  | nil => rfl
  | cons a t ih =>
    have ha : ¬ (a.id = itemId) := h a (List.mem_cons_self _ _)
    simp only [List.map_cons, if_neg ha]
    exact congrArg (a :: ·) (ih (fun p hp => h p (List.mem_cons_of_mem _ hp)))

theorem updateItemData_no_match {doc : AgentState} {itemId : String}
    (h : ∀ p ∈ doc.items, p.id ≠ itemId) (f : JsObj → JsObj) :
    updateItemData doc itemId f = doc := by
  unfold updateItemData
  rw [map_ite_no_match _ h]

theorem updateItem_no_match {doc : AgentState} {itemId : String}
    (h : ∀ p ∈ doc.items, p.id ≠ itemId) (u : ItemPatch) :
    updateItem doc itemId u = doc := by
  unfold updateItem
  rw [map_ite_no_match _ h]

/-- A sample note item used by witnesses. -/
def sampleNote : Item :=
  { id := "0001", type := CardType.note, name := "", subtitle := "",
    data := defaultDataFor CardType.note }

/-- A sample one-note document used by witnesses. -/
def sampleDoc : AgentState :=
  { items := [sampleNote], globalTitle := "", globalDescription := "",
    lastAction := none, itemsCreated := 1 }

/-! ## Claim C1 -/

/-- C1: for every document (with the physically reachable non-negative
counter) and every create-item call, the allocated id is
`max(itemsCreated, max numeric existing id) + 1` rendered as a 4-digit
zero-padded decimal string; the resulting document carries that counter,
the new item appended at the end, and `lastAction = "created:<id>"`. -/
theorem addItem_allocates_spec_id (doc : AgentState) (t : CardType) (name : Option String)
    (h : 0 ≤ doc.itemsCreated) :
    (addItem doc t name).2 = padStart4Str (intToDecStr (specNextItemNumber doc)) ∧
    (addItem doc t name).1.itemsCreated = specNextItemNumber doc ∧
    (addItem doc t name).1.items = doc.items ++ [mkItem (addItem doc t name).2 t name] ∧
    (addItem doc t name).1.lastAction = some ("created:" ++ (addItem doc t name).2) := by
  have hnext : nextItemNumber doc = specNextItemNumber doc := nextItemNumber_eq_spec h
  refine ⟨?_, ?_, ?_, ?_⟩ <;> simp [addItem, hnext]

theorem addItem_allocates_spec_id_witness :
    0 ≤ sampleDoc.itemsCreated ∧
    ((addItem sampleDoc CardType.chart none).2 =
        padStart4Str (intToDecStr (specNextItemNumber sampleDoc)) ∧
      (addItem sampleDoc CardType.chart none).1.itemsCreated = specNextItemNumber sampleDoc ∧
      (addItem sampleDoc CardType.chart none).1.items =
        sampleDoc.items ++ [mkItem (addItem sampleDoc CardType.chart none).2 CardType.chart none] ∧
      (addItem sampleDoc CardType.chart none).1.lastAction =
        some ("created:" ++ (addItem sampleDoc CardType.chart none).2)) :=
  ⟨by decide, addItem_allocates_spec_id sampleDoc CardType.chart none (by decide)⟩

/-! ## Claim C7 -/

/-- C7: delete-item filters out the item with the given id; when it
existed the status is `"deleted:<id>"`, otherwise the items are unchanged
and the status is `"not_found:<id>"`; the returned status always equals
the recorded `lastAction`. -/
theorem deleteItem_status (doc : AgentState) (itemId : String) :
    (deleteItemHandler doc itemId).1.items = doc.items.filter (fun p => p.id ≠ itemId) ∧
    (deleteItemHandler doc itemId).1.lastAction = some (deleteItemHandler doc itemId).2 ∧
    (doc.items.any (fun p => p.id = itemId) = true →
      (deleteItemHandler doc itemId).2 = "deleted:" ++ itemId) ∧
    (doc.items.any (fun p => p.id = itemId) = false →
      (deleteItemHandler doc itemId).2 = "not_found:" ++ itemId ∧
      (deleteItemHandler doc itemId).1.items = doc.items) := by
  refine ⟨rfl, rfl, ?_, ?_⟩
  · intro hex
    simp [deleteItemHandler, hex]
  · intro hex
    refine ⟨by simp [deleteItemHandler, hex], ?_⟩
    have hall : ∀ p ∈ doc.items, ¬ (p.id = itemId) := by
      intro p hp
      simpa using (List.any_eq_false.mp hex) p hp
    show doc.items.filter (fun p => p.id ≠ itemId) = doc.items
    exact List.filter_eq_self.mpr (fun p hp => decide_eq_true (hall p hp))

theorem deleteItem_status_witness :
    (deleteItemHandler sampleDoc "0001").2 = "deleted:0001" ∧
    (deleteItemHandler (deleteItemHandler sampleDoc "0001").1 "0001").2 = "not_found:0001" :=
  ⟨(deleteItem_status sampleDoc "0001").2.2.1 (by decide),
   ((deleteItem_status (deleteItemHandler sampleDoc "0001").1 "0001").2.2.2 (by decide)).1⟩

/-! ## Claim C6 -/

/-- C6: every per-item setter invoked with an itemId matching no existing
item returns the document unchanged (value-identical). -/
theorem missing_item_setters_noop (doc : AgentState) (itemId : String)
    (h : ∀ p ∈ doc.items, p.id ≠ itemId) :
    (∀ u : ItemPatch, updateItem doc itemId u = doc) ∧
    (∀ f : JsObj → JsObj, updateItemData doc itemId f = doc) ∧
    (∀ v, setItemNameHandler doc v itemId = doc) ∧
    (∀ v, setItemSubtitleHandler doc v itemId = doc) ∧
    (∀ v, setNoteField1Handler doc v itemId = doc) ∧
    (∀ v, setProjectField1Handler doc v itemId = doc) ∧
    (∀ parse raw, setProjectField3Handler parse doc itemId raw = doc) ∧
    (∀ cid text done, setProjectChecklistItemHandler doc itemId cid text done = doc) ∧
    (∀ cid, removeProjectChecklistItemHandler doc itemId cid = doc) ∧
    (∀ tag, addEntityField3Handler doc tag itemId = doc) ∧
    (∀ tag, removeEntityField3Handler doc tag itemId = doc) ∧
    (∀ i v, setChartField1ValueHandler doc itemId i v = doc) ∧
    (∀ i, clearChartField1ValueHandler doc itemId i = doc) ∧
    (∀ i, removeChartField1Handler doc itemId i = doc) ∧
    (∀ v, setCharacterNameHandler doc v itemId = doc) ∧
    (∀ tr, addCharacterTraitHandler doc tr itemId = doc) ∧
    (∀ v, setStoryTitleHandler doc v itemId = doc) ∧
    (∀ now cap dur, addStorySlideHandler doc now itemId cap dur = doc) ∧
    (∀ sid cap, setStorySlideCaptionHandler doc itemId sid cap = doc) ∧
    (∀ sid, removeStorySlideHandler doc itemId sid = doc) := by
  refine ⟨updateItem_no_match h, updateItemData_no_match h,
    fun v => updateItem_no_match h _, fun v => updateItem_no_match h _,
    fun v => updateItemData_no_match h _, fun v => updateItemData_no_match h _,
    ?_, fun cid text done => updateItemData_no_match h _,
    fun cid => updateItemData_no_match h _,
    fun tag => updateItemData_no_match h _, fun tag => updateItemData_no_match h _,
    fun i v => updateItemData_no_match h _, fun i => updateItemData_no_match h _,
    fun i => updateItemData_no_match h _, fun v => updateItemData_no_match h _,
    fun tr => updateItemData_no_match h _, fun v => updateItemData_no_match h _,
    fun now cap dur => updateItemData_no_match h _,
    fun sid cap => updateItemData_no_match h _, fun sid => updateItemData_no_match h _⟩
  intro parse raw
  unfold setProjectField3Handler
  cases normalizeDate parse raw with
  | none => rfl
  | some v => exact updateItemData_no_match h _

theorem missing_item_setters_noop_witness :
    (∀ p ∈ sampleDoc.items, p.id ≠ "9999") ∧
    updateItem sampleDoc "9999" {} = sampleDoc :=
  ⟨by decide, (missing_item_setters_noop sampleDoc "9999" (by decide)).1 {}⟩

/-! ## Lemmas: `jsTrim` is idempotent -/

theorem dropWhile_idem {p : Char → Bool} :
    ∀ l : List Char, (l.dropWhile p).dropWhile p = l.dropWhile p := by
  intro l
  induction l with
  | nil => rfl
  | cons a t ih =>
    by_cases ha : p a = true
    · simp [List.dropWhile_cons, ha, ih]
    · simp [List.dropWhile_cons, ha]

theorem head?_dropWhile_false {p : Char → Bool} :
    ∀ (l : List Char) a, (l.dropWhile p).head? = some a → p a = false := by
  intro l
  induction l with
  | nil => intro a h; simp at h
  | cons x t ih =>
    intro a h
    by_cases hx : p x = true
    · rw [List.dropWhile_cons, if_pos hx] at h
      exact ih a h
    · rw [List.dropWhile_cons, if_neg hx] at h
      simp at h
      subst h
      simpa using hx

theorem getLast?_dropWhile {p : Char → Bool} :
    ∀ l : List Char, l.dropWhile p ≠ [] → (l.dropWhile p).getLast? = l.getLast? := by
  intro l
  induction l with
  | nil => intro h; exact absurd rfl h
  | cons x t ih =>
    intro h
    by_cases hx : p x = true
    · rw [List.dropWhile_cons, if_pos hx] at h ⊢
      have ht : t ≠ [] := by
        intro ht; rw [ht] at h; exact h rfl
      rw [ih h]
      cases t with
      | nil => exact absurd rfl ht
      | cons b u => rw [List.getLast?_cons_cons]
    · rw [List.dropWhile_cons, if_neg hx]

theorem dropWhile_eq_self_of_head {p : Char → Bool} {l : List Char}
    (h : ∀ a, l.head? = some a → p a = false) : l.dropWhile p = l := by
  cases l with
  | nil => rfl
  | cons a t =>
    have := h a rfl
    simp [List.dropWhile_cons, this]

theorem jsTrim_idem (s : String) : jsTrim (jsTrim s) = jsTrim s := by
  unfold jsTrim
  apply congrArg String.mk
  set w := Char.isWhitespace
  set A := s.data.dropWhile w with hA
  set B := A.reverse.dropWhile w with hB
  show ((B.reverse.dropWhile w).reverse.dropWhile w).reverse = B.reverse
  have hfront : B.reverse.dropWhile w = B.reverse := by
    apply dropWhile_eq_self_of_head
    intro a ha
    rw [List.head?_reverse] at ha
    have hBne : B ≠ [] := by
      intro hb; rw [hb] at ha; simp at ha
    rw [hB, getLast?_dropWhile _ (hB ▸ hBne), List.getLast?_reverse] at ha
    exact head?_dropWhile_false s.data a ha
  rw [hfront, List.reverse_reverse, hB, dropWhile_idem]

/-- The trimmed trimmed name equals the trimmed name (string level). -/
theorem jsTrim_mkItem_name {s : String} (h : jsTrim s ≠ "") :
    (mkItem id₀ t (some s)).name = jsTrim s := by
  simp [mkItem, h]

/-! ## Claim C3: reachability invariants -/

theorem goodDoc_initial : GoodDoc initialState := by
  refine ⟨le_refl 0, ?_, List.Pairwise.nil⟩
  intro it hit
  simp [initialState] at hit

theorem maxExistingId_fold_le {c : Int} :
    ∀ (l : List Item) (m : Int), m ≤ c →
      (∀ it ∈ l, ∃ n : Nat, (n : Int) ≤ c ∧ it.id = padStart4Str (natToDecStr n)) →
      l.foldl
        (fun m it =>
          match parseIntJs it.id with
          | some p => max m p
          | none => m)
        m ≤ c := by
  intro l
  induction l with
  | nil => intro m hm _; exact hm
  | cons it rest ih =>
    intro m hm hall
    obtain ⟨n, hn, hid⟩ := hall it (List.mem_cons_self _ _)
    simp only [List.foldl_cons, hid, parseIntJs_pad4]
    exact ih _ (max_le hm hn) (fun p hp => hall p (List.mem_cons_of_mem _ hp))

theorem maxExistingId_le {doc : AgentState} (hg : GoodDoc doc) :
    maxExistingId doc.items ≤ doc.itemsCreated := by
  obtain ⟨hc, hids, _⟩ := hg
  exact maxExistingId_fold_le doc.items 0 hc
    (fun it hit => (hids it hit).elim (fun n hn => ⟨n, hn.2.1, hn.2.2⟩))

theorem nextItemNumber_good {doc : AgentState} (hg : GoodDoc doc) :
    nextItemNumber doc = doc.itemsCreated + 1 := by
  unfold nextItemNumber
  rw [max_eq_left (maxExistingId_le hg)]

theorem addItem_good {doc : AgentState} (hg : GoodDoc doc) (t : CardType)
    (name : Option String) :
    GoodDoc (addItem doc t name).1 ∧
    (addItem doc t name).1.itemsCreated = doc.itemsCreated + 1 := by
  obtain ⟨hc, hids, hpw⟩ := hg
  have hnext : nextItemNumber doc = doc.itemsCreated + 1 := nextItemNumber_good ⟨hc, hids, hpw⟩
  set c := doc.itemsCreated with hcdef
  have hc1 : (0 : Int) ≤ c + 1 := by omega
  have hidstr : padStart4Str (intToDecStr (c + 1)) =
      padStart4Str (natToDecStr (c + 1).toNat) := by
    rw [intToDecStr_nonneg hc1]
  have hNcast : (((c + 1).toNat : Nat) : Int) = c + 1 := Int.toNat_of_nonneg hc1
  constructor
  · refine ⟨?_, ?_, ?_⟩
    · show 0 ≤ (addItem doc t name).1.itemsCreated
      simp only [addItem, hnext]
      omega
    · intro it hit
      simp only [addItem, hnext] at hit ⊢
      rcases List.mem_append.mp hit with hit | hit
      · obtain ⟨n, h1, h2, h3⟩ := hids it hit
        exact ⟨n, h1, by omega, h3⟩
      · rw [List.mem_singleton] at hit
        subst hit
        refine ⟨(c + 1).toNat, by omega, by omega, ?_⟩
        show padStart4Str (intToDecStr (c + 1)) = padStart4Str (natToDecStr (c + 1).toNat)
        exact hidstr
    · show ((addItem doc t name).1.items).Pairwise (fun a b => a.id ≠ b.id)
      simp only [addItem, hnext]
      rw [List.pairwise_append]
      refine ⟨hpw, List.pairwise_singleton _ _, ?_⟩
      intro a ha b hb
      rw [List.mem_singleton] at hb
      subst hb
      obtain ⟨n, hn1, hn2, hn3⟩ := hids a ha
      show a.id ≠ padStart4Str (intToDecStr (c + 1))
      rw [hidstr, hn3]
      intro heq
      have := pad4_natToDec_inj heq
      omega
  · simp [addItem, hnext]

theorem deleteItemOp_good {doc : AgentState} (hg : GoodDoc doc) (i : String) :
    GoodDoc (deleteItemOp doc i) ∧
    (deleteItemOp doc i).itemsCreated = doc.itemsCreated := by
  obtain ⟨hc, hids, hpw⟩ := hg
  refine ⟨⟨hc, ?_, ?_⟩, rfl⟩
  · intro it hit
    exact hids it (List.mem_of_mem_filter hit)
  · exact hpw.sublist (List.filter_sublist _)

theorem applyOp_good {doc : AgentState} (hg : GoodDoc doc) (op : CanvasOp) :
    GoodDoc (applyOp doc op) ∧ doc.itemsCreated ≤ (applyOp doc op).itemsCreated := by
  cases op with
  | createOp t name =>
    obtain ⟨h1, h2⟩ := addItem_good hg t name
    exact ⟨h1, by rw [show applyOp doc (CanvasOp.createOp t name) = (addItem doc t name).1 from rfl, h2]; omega⟩
  | deleteOp i =>
    obtain ⟨h1, h2⟩ := deleteItemOp_good hg i
    exact ⟨h1, by rw [show applyOp doc (CanvasOp.deleteOp i) = deleteItemOp doc i from rfl, h2]⟩

theorem runOps_good {doc : AgentState} (hg : GoodDoc doc) :
    ∀ ops : List CanvasOp,
      GoodDoc (runOps doc ops) ∧ doc.itemsCreated ≤ (runOps doc ops).itemsCreated := by
  intro ops
  induction ops generalizing doc with
  | nil => exact ⟨hg, le_refl _⟩
  | cons op rest ih =>
    obtain ⟨h1, h2⟩ := applyOp_good hg op
    obtain ⟨h3, h4⟩ := ih h1
    exact ⟨h3, le_trans h2 h4⟩

theorem allocTrace_good {doc : AgentState} (hg : GoodDoc doc) :
    ∀ ops : List CanvasOp,
      (allocTrace doc ops).Chain' (· < ·) ∧
      ∀ a ∈ allocTrace doc ops, doc.itemsCreated < a := by
  intro ops
  induction ops generalizing doc with
  | nil => exact ⟨List.chain'_nil, by intro a ha; simp [allocTrace] at ha⟩
  | cons op rest ih =>
    cases op with
    | createOp t name =>
      have hnext : nextItemNumber doc = doc.itemsCreated + 1 := nextItemNumber_good hg
      obtain ⟨hgood, hcnt⟩ := applyOp_good hg (CanvasOp.createOp t name)
      have hcnt' : (applyOp doc (CanvasOp.createOp t name)).itemsCreated =
          doc.itemsCreated + 1 :=
        (addItem_good hg t name).2
      obtain ⟨hchain, hmem⟩ := ih hgood
      constructor
      · rw [show allocTrace doc (CanvasOp.createOp t name :: rest) =
          nextItemNumber doc :: allocTrace (applyOp doc (CanvasOp.createOp t name)) rest from rfl]
        rw [List.chain'_cons']
        refine ⟨?_, hchain⟩
        intro b hb
        have hbmem : b ∈ allocTrace (applyOp doc (CanvasOp.createOp t name)) rest :=
          List.mem_of_mem_head? hb
        have := hmem b hbmem
        rw [hcnt'] at this
        rw [hnext]
        omega
      · intro a ha
        rw [show allocTrace doc (CanvasOp.createOp t name :: rest) =
          nextItemNumber doc :: allocTrace (applyOp doc (CanvasOp.createOp t name)) rest from rfl] at ha
        rcases List.mem_cons.mp ha with ha | ha
        · subst ha; rw [hnext]; omega
        · have := hmem a ha
          rw [hcnt'] at this
          omega
    | deleteOp i =>
      obtain ⟨hgood, _⟩ := applyOp_good hg (CanvasOp.deleteOp i)
      have hcnt : (applyOp doc (CanvasOp.deleteOp i)).itemsCreated = doc.itemsCreated :=
        (deleteItemOp_good hg i).2
      obtain ⟨hchain, hmem⟩ := ih hgood
      refine ⟨hchain, ?_⟩
      intro a ha
      have := hmem a ha
      rw [hcnt] at this
      exact this

/-- C3: along any sequence of create/delete operations from the empty
document, `itemsCreated` never decreases, bounds the numeric value of every
live item id, live item ids are pairwise distinct, and the allocated
numbers are strictly increasing across the whole run (deleted items
included). -/
theorem engine_invariants (ops extra : List CanvasOp) :
    (runOps initialState ops).itemsCreated ≤
      (runOps initialState (ops ++ extra)).itemsCreated ∧
    (∀ it ∈ (runOps initialState ops).items,
      idNumVal it.id ≤ (runOps initialState ops).itemsCreated) ∧
    (runOps initialState ops).items.Pairwise (fun a b => a.id ≠ b.id) ∧
    (allocTrace initialState ops).Chain' (· < ·) := by
  obtain ⟨hgood, _⟩ := runOps_good goodDoc_initial ops
  obtain ⟨hc, hids, hpw⟩ := hgood
  refine ⟨?_, ?_, hpw, (allocTrace_good goodDoc_initial ops).1⟩
  · rw [show runOps initialState (ops ++ extra) =
      runOps (runOps initialState ops) extra from List.foldl_append _ _ _ _]
    exact (runOps_good ⟨hc, hids, hpw⟩ extra).2
  · intro it hit
    obtain ⟨n, _, hn2, hn3⟩ := hids it hit
    rw [hn3, idNumVal_pad4]
    exact hn2

theorem engine_invariants_witness :
    (runOps initialState [CanvasOp.createOp CardType.note none]).itemsCreated ≤
      (runOps initialState ([CanvasOp.createOp CardType.note none] ++
        [CanvasOp.deleteOp "0001", CanvasOp.createOp CardType.chart none])).itemsCreated ∧
    (∀ it ∈ (runOps initialState [CanvasOp.createOp CardType.note none]).items,
      idNumVal it.id ≤
        (runOps initialState [CanvasOp.createOp CardType.note none]).itemsCreated) ∧
    (runOps initialState [CanvasOp.createOp CardType.note none]).items.Pairwise
      (fun a b => a.id ≠ b.id) ∧
    (allocTrace initialState [CanvasOp.createOp CardType.note none]).Chain' (· < ·) :=
  engine_invariants [CanvasOp.createOp CardType.note none]
    [CanvasOp.deleteOp "0001", CanvasOp.createOp CardType.chart none]

/-! ## Claims C2 and C10: idempotent creation -/

theorem createItemHandler_creates (env : CreateEnv) (now : Nat) (t : CardType)
    (name : Option String)
    (hdup : (if jsTrim (name.getD "") = "" then none
      else env.doc.items.find?
        (fun it => it.type = t ∧ jsTrim it.name = jsTrim (name.getD ""))) = none)
    (hthrottle : throttleHit env.lastCreation now t (jsTrim (name.getD "")) = none) :
    createItemHandler env now t name =
      ({ doc := (addItem env.doc t name).1,
         lastCreation := some ⟨t, jsTrim (name.getD ""), (addItem env.doc t name).2, now⟩ },
       (addItem env.doc t name).2) := by
  simp only [createItemHandler]
  rw [hdup, hthrottle]

theorem createItemHandler_dup_hit (env : CreateEnv) (now : Nat) (t : CardType)
    (name : Option String) (found : Item)
    (hdup : (if jsTrim (name.getD "") = "" then none
      else env.doc.items.find?
        (fun it => it.type = t ∧ jsTrim it.name = jsTrim (name.getD ""))) = some found) :
    createItemHandler env now t name = (env, found.id) := by
  simp only [createItemHandler]
  rw [hdup]

theorem createItemHandler_throttle_hit (env : CreateEnv) (now : Nat) (t : CardType)
    (name : Option String) (cachedId : String)
    (hdup : (if jsTrim (name.getD "") = "" then none
      else env.doc.items.find?
        (fun it => it.type = t ∧ jsTrim it.name = jsTrim (name.getD ""))) = none)
    (hth : throttleHit env.lastCreation now t (jsTrim (name.getD "")) = some cachedId) :
    createItemHandler env now t name = (env, cachedId) := by
  simp only [createItemHandler]
  rw [hdup, hth]

/-- C2: calling create-item twice with the same type and the same non-empty
name (the second call inside the 5-second window) returns the same id both
times and appends exactly one new item; the second call leaves the state
untouched. -/
theorem createItem_idempotent_nonempty (env : CreateEnv) (now1 now2 : Nat)
    (t : CardType) (name : String)
    (hname : jsTrim name ≠ "")
    (hnodup : ∀ it ∈ env.doc.items, ¬ (it.type = t ∧ jsTrim it.name = jsTrim name))
    (hthrottle : throttleHit env.lastCreation now1 t (jsTrim name) = none)
    (hwindow : now2 - now1 < 5000) :
    (createItemHandler (createItemHandler env now1 t (some name)).1 now2 t (some name)).2 =
      (createItemHandler env now1 t (some name)).2 ∧
    (createItemHandler (createItemHandler env now1 t (some name)).1 now2 t (some name)).1 =
      (createItemHandler env now1 t (some name)).1 ∧
    (createItemHandler env now1 t (some name)).1.doc.items =
      env.doc.items ++ [mkItem (createItemHandler env now1 t (some name)).2 t (some name)] := by
  have hfind1 : env.doc.items.find?
      (fun it => it.type = t ∧ jsTrim it.name = jsTrim name) = none :=
    List.find?_eq_none.mpr (fun x hx => by simpa using hnodup x hx)
  have hdup1 : (if jsTrim ((some name).getD "") = "" then none
      else env.doc.items.find?
        (fun it => it.type = t ∧ jsTrim it.name = jsTrim ((some name).getD ""))) = none := by
    rw [show (some name).getD "" = name from rfl, if_neg hname]
    exact hfind1
  have h1 := createItemHandler_creates env now1 t (some name) hdup1 hthrottle
  have hid1 : (createItemHandler env now1 t (some name)).2 =
      (addItem env.doc t (some name)).2 := by rw [h1]
  have henv1 : (createItemHandler env now1 t (some name)).1 =
      ({ doc := (addItem env.doc t (some name)).1,
         lastCreation := some ⟨t, jsTrim ((some name).getD ""),
           (addItem env.doc t (some name)).2, now1⟩ } : CreateEnv) := by rw [h1]
  have hpnew : (fun (it : Item) =>
      decide (it.type = t ∧ jsTrim it.name = jsTrim name))
      (mkItem (addItem env.doc t (some name)).2 t (some name)) = true := by
    simp [mkItem, hname, jsTrim_idem]
  have hfind2 : ((addItem env.doc t (some name)).1).items.find?
      (fun it => it.type = t ∧ jsTrim it.name = jsTrim name) =
      some (mkItem (addItem env.doc t (some name)).2 t (some name)) := by
    show (env.doc.items ++
      [mkItem (addItem env.doc t (some name)).2 t (some name)]).find? _ = _
    rw [List.find?_append, hfind1, Option.none_or]
    exact List.find?_cons_of_pos _ hpnew
  have hdup2 : (if jsTrim ((some name).getD "") = "" then none
      else ((createItemHandler env now1 t (some name)).1).doc.items.find?
        (fun it => it.type = t ∧ jsTrim it.name = jsTrim ((some name).getD ""))) =
      some (mkItem (addItem env.doc t (some name)).2 t (some name)) := by
    rw [show (some name).getD "" = name from rfl, if_neg hname, henv1]
    exact hfind2
  have h2 := createItemHandler_dup_hit ((createItemHandler env now1 t (some name)).1)
    now2 t (some name) _ hdup2
  refine ⟨?_, ?_, ?_⟩
  · rw [h2, hid1]; rfl
  · rw [h2]
  · rw [henv1, hid1]; rfl

theorem createItem_idempotent_nonempty_witness :
    (jsTrim "My Note" ≠ "" ∧
      (∀ it ∈ (CreateEnv.mk initialState none).doc.items,
        ¬ (it.type = CardType.note ∧ jsTrim it.name = jsTrim "My Note")) ∧
      throttleHit (CreateEnv.mk initialState none).lastCreation 1000 CardType.note
        (jsTrim "My Note") = none ∧
      2000 - 1000 < 5000) ∧
    (createItemHandler
        (createItemHandler (CreateEnv.mk initialState none) 1000 CardType.note
          (some "My Note")).1 2000 CardType.note (some "My Note")).2 =
      (createItemHandler (CreateEnv.mk initialState none) 1000 CardType.note
        (some "My Note")).2 :=
  ⟨⟨by decide, by decide, by decide, by decide⟩,
   (createItem_idempotent_nonempty (CreateEnv.mk initialState none) 1000 2000
     CardType.note "My Note" (by decide) (by decide) (by decide) (by decide)).1⟩

/-- C10: calling create-item twice with the same type and an empty (or
absent) name inside the 5-second window returns the first creation's id
from both calls and creates only one item: the time-window throttle
suppresses the duplicate even though the name-based deduplication step does
not apply to empty names. -/
theorem createItem_throttle_empty_name (env : CreateEnv) (now1 now2 : Nat)
    (t : CardType) (name : Option String)
    (hname : jsTrim (name.getD "") = "")
    (hthrottle : throttleHit env.lastCreation now1 t (jsTrim (name.getD "")) = none)
    (hwindow : now2 - now1 < 5000) :
    (createItemHandler (createItemHandler env now1 t name).1 now2 t name).2 =
      (createItemHandler env now1 t name).2 ∧
    (createItemHandler (createItemHandler env now1 t name).1 now2 t name).1 =
      (createItemHandler env now1 t name).1 ∧
    (createItemHandler env now1 t name).1.doc.items =
      env.doc.items ++ [mkItem (createItemHandler env now1 t name).2 t name] ∧
    (mkItem (createItemHandler env now1 t name).2 t name).name = "" := by
  have hdup : (if jsTrim (name.getD "") = "" then none
      else env.doc.items.find?
        (fun it => it.type = t ∧ jsTrim it.name = jsTrim (name.getD ""))) = none :=
    if_pos hname
  have h1 := createItemHandler_creates env now1 t name hdup hthrottle
  have hid1 : (createItemHandler env now1 t name).2 = (addItem env.doc t name).2 := by
    rw [h1]
  have henv1 : (createItemHandler env now1 t name).1 =
      ({ doc := (addItem env.doc t name).1,
         lastCreation := some ⟨t, jsTrim (name.getD ""),
           (addItem env.doc t name).2, now1⟩ } : CreateEnv) := by rw [h1]
  have hdup2 : (if jsTrim (name.getD "") = "" then none
      else ((createItemHandler env now1 t name).1).doc.items.find?
        (fun it => it.type = t ∧ jsTrim it.name = jsTrim (name.getD ""))) = none :=
    if_pos hname
  have hthrottle2 : throttleHit ((createItemHandler env now1 t name).1).lastCreation
      now2 t (jsTrim (name.getD "")) = some (addItem env.doc t name).2 := by
    rw [henv1]
    show (if (t = t ∧ jsTrim (name.getD "") = jsTrim (name.getD "") ∧
      now2 - now1 < 5000) then some (addItem env.doc t name).2 else none) = _
    rw [if_pos ⟨rfl, rfl, hwindow⟩]
  have h2 : createItemHandler ((createItemHandler env now1 t name).1) now2 t name =
      (((createItemHandler env now1 t name).1), (addItem env.doc t name).2) :=
    createItemHandler_throttle_hit _ now2 t name _ hdup2 hthrottle2
  refine ⟨?_, ?_, ?_, ?_⟩
  · rw [h2, hid1]
  · rw [h2]
  · rw [henv1, hid1]; rfl
  · cases name with
    | none => rfl
    | some s =>
      have : jsTrim s = "" := by simpa using hname
      simp [mkItem, this]

theorem createItem_throttle_empty_name_witness :
    (jsTrim ((none : Option String).getD "") = "" ∧
      throttleHit (CreateEnv.mk initialState none).lastCreation 1000 CardType.note
        (jsTrim ((none : Option String).getD "")) = none ∧
      2000 - 1000 < 5000) ∧
    (createItemHandler
        (createItemHandler (CreateEnv.mk initialState none) 1000 CardType.note none).1
        2000 CardType.note none).2 =
      (createItemHandler (CreateEnv.mk initialState none) 1000 CardType.note none).2 :=
  ⟨⟨by decide, by decide, by decide⟩,
   (createItem_throttle_empty_name (CreateEnv.mk initialState none) 1000 2000
     CardType.note none (by decide) (by decide) (by decide)).1⟩

/-! ## Lemmas: JavaScript record reads and writes -/

theorem jsGet_jsSet_same : ∀ (o : JsObj) (k : String) (v : JsValue),
    jsGet (jsSet o k v) k = some v := by
  intro o k v
  induction o with
  | nil => simp [jsSet, jsGet]
  | cons p rest ih =>
    by_cases hk : p.1 = k
    · simp [jsSet, jsGet, hk]
    · simp [jsSet, jsGet, hk, ih]

theorem jsGet_jsSet_other : ∀ (o : JsObj) (k k' : String) (v : JsValue),
    k' ≠ k → jsGet (jsSet o k' v) k = jsGet o k := by
  intro o k k' v h
  induction o with
  | nil => simp [jsSet, jsGet, h]
  | cons p rest ih =>
    by_cases hk : p.1 = k'
    · simp [jsSet, jsGet, hk, h, show p.1 ≠ k from hk ▸ h]
    · by_cases hk2 : p.1 = k
      · simp [jsSet, jsGet, hk, hk2, Ne.symm h]
      · simp [jsSet, jsGet, hk, hk2, ih]

theorem jsSet_jsSet_same : ∀ (o : JsObj) (k : String) (v1 v2 : JsValue),
    jsSet (jsSet o k v1) k v2 = jsSet o k v2 := by
  intro o k v1 v2
  induction o with
  | nil => simp [jsSet]
  | cons p rest ih =>
    by_cases hk : p.1 = k
    · simp [jsSet, hk]
    · simp [jsSet, hk, ih]

theorem jsSet_self : ∀ {o : JsObj} {k : String} {v : JsValue},
    jsGet o k = some v → jsSet o k v = o := by
  intro o
  induction o with
  | nil => intro k v h; simp [jsGet] at h
  | cons p rest ih =>
    intro k v h
    by_cases hk : p.1 = k
    · have : p.2 = v := by
        rw [show p = (p.1, p.2) from rfl] at h
        simp [jsGet, hk] at h
        exact h
      cases p with
      | mk k' v' =>
        simp only at hk this
        subst hk; subst this
        simp [jsSet]
    · cases p with
      | mk k' v' =>
        simp only at hk
        rw [show jsGet ((k', v') :: rest) k = jsGet rest k by simp [jsGet, hk]] at h
        simp [jsSet, hk, ih h]

/-! ## Claim C4: checklist target resolution -/

/-- The combined text/done update the handler applies to the resolved
entry. -/
def applyTextDone (text : Option String) (done : Option Bool) (c : ChecklistEntry) : ChecklistEntry :=
  let c1 := match text with
    | some s => { c with text := s }
    | none => c
  match done with
  | some b => { c1 with done := b }
  | none => c1

theorem map_ite_checklist_no_match {l : List ChecklistEntry} {tid : String}
    (g : ChecklistEntry → ChecklistEntry) (h : ∀ c ∈ l, c.id ≠ tid) :
    (l.map fun c => if c.id = tid then g c else c) = l := by
  induction l with
  | nil => rfl
  | cons a t ih =>
    have ha : ¬ (a.id = tid) := h a (List.mem_cons_self _ _)
    simp only [List.map_cons, if_neg ha]
    exact congrArg (a :: ·) (ih (fun c hc => h c (List.mem_cons_of_mem _ hc)))

theorem checklistUpdate_eq (data : JsObj) (l : List ChecklistEntry)
    (tid : String) (text : Option String) (done : Option Bool)
    (hf : jsGet data "field4" = some (JsValue.varrC l)) :
    checklistUpdate tid text done data =
      jsSet data "field4" (JsValue.varrC
        (l.map (fun c => if c.id = resolveChecklistTarget l tid
          then applyTextDone text done c else c))) := by
  simp only [checklistUpdate, hf]
  set r := resolveChecklistTarget l tid with hr
  cases text with
  | none =>
    cases done with
    | none =>
      simp only [applyTextDone, ite_self, List.map_id']
      rw [jsSet_self hf]
    | some b =>
      simp only [projectSetField4ItemDone, hf, applyTextDone]
  | some s =>
    cases done with
    | none =>
      simp only [projectSetField4ItemText, hf, applyTextDone]
    | some b =>
      simp only [projectSetField4ItemText, hf, projectSetField4ItemDone,
        jsGet_jsSet_same, jsSet_jsSet_same, applyTextDone, List.map_map]
      apply congrArg (jsSet data "field4")
      apply congrArg JsValue.varrC
      apply List.map_congr_left
      intro c _
      by_cases hc : c.id = r
      · simp [Function.comp, hc]
      · simp [Function.comp, hc]

/-- C4: the checklist set-text/set-done updater locates the target by exact
id; absent an exact match, a bare numeric identifier is reinterpreted first
as a 0-based and then as a 1-based index; an exact match takes precedence
over index interpretation; and when nothing matches the data is returned
unchanged. -/
theorem checklist_set_target_resolution (doc : AgentState) (itemId : String)
    (data : JsObj) (l : List ChecklistEntry) (tid : String)
    (text : Option String) (done : Option Bool)
    (hf : jsGet data "field4" = some (JsValue.varrC l)) :
    (setProjectChecklistItemHandler doc itemId tid text done =
      updateItemData doc itemId (checklistUpdate tid text done)) ∧
    (checklistUpdate tid text done data =
      jsSet data "field4" (JsValue.varrC
        (l.map (fun c => if c.id = resolveChecklistTarget l tid
          then applyTextDone text done c else c)))) ∧
    ((∃ c ∈ l, c.id = tid) → resolveChecklistTarget l tid = tid) ∧
    ((∀ c ∈ l, c.id ≠ tid) → isAllDigits tid = true →
      ∀ h0 : decStrToNat tid < l.length,
        resolveChecklistTarget l tid = (l.get ⟨decStrToNat tid, h0⟩).id) ∧
    ((∀ c ∈ l, c.id ≠ tid) → isAllDigits tid = true →
      ¬ decStrToNat tid < l.length → 0 < decStrToNat tid →
      ∀ h1 : decStrToNat tid - 1 < l.length,
        resolveChecklistTarget l tid = (l.get ⟨decStrToNat tid - 1, h1⟩).id) ∧
    ((∀ c ∈ l, c.id ≠ resolveChecklistTarget l tid) →
      checklistUpdate tid text done data = data) := by
  have hany_of : (∃ c ∈ l, c.id = tid) →
      (l.any (fun c => c.id = tid)) = true := by
    intro ⟨c, hc, hid⟩
    exact List.any_eq_true.mpr ⟨c, hc, by simpa using hid⟩
  have hany_not : (∀ c ∈ l, c.id ≠ tid) →
      (l.any (fun c => c.id = tid)) = false := by
    intro h
    apply List.any_eq_false.mpr
    intro c hc
    simpa using h c hc
  refine ⟨rfl, checklistUpdate_eq data l tid text done hf, ?_, ?_, ?_, ?_⟩
  · intro hex
    simp [resolveChecklistTarget, hany_of hex]
  · intro hno hdig h0
    simp only [resolveChecklistTarget, hany_not hno, Bool.false_eq_true, if_false,
      hdig, if_true, dif_pos h0]
  · intro hno hdig h0 hpos h1
    simp only [resolveChecklistTarget, hany_not hno, Bool.false_eq_true, if_false,
      hdig, if_true, dif_neg h0, dif_pos (And.intro hpos h1)]
  · intro hno
    rw [checklistUpdate_eq data l tid text done hf,
      map_ite_checklist_no_match _ hno, jsSet_self hf]

theorem checklist_set_target_resolution_witness :
    (jsGet [("field4", JsValue.varrC
        [⟨"001", "a", false, false⟩, ⟨"002", "b", false, false⟩,
         ⟨"003", "c", false, false⟩])] "field4" =
      some (JsValue.varrC
        [⟨"001", "a", false, false⟩, ⟨"002", "b", false, false⟩,
         ⟨"003", "c", false, false⟩])) ∧
    resolveChecklistTarget
      [⟨"001", "a", false, false⟩, ⟨"002", "b", false, false⟩,
       ⟨"003", "c", false, false⟩] "2" = "003" :=
  ⟨by decide,
    by
      have h := (checklist_set_target_resolution sampleDoc "0001"
        [("field4", JsValue.varrC
          [⟨"001", "a", false, false⟩, ⟨"002", "b", false, false⟩,
           ⟨"003", "c", false, false⟩])]
        [⟨"001", "a", false, false⟩, ⟨"002", "b", false, false⟩,
         ⟨"003", "c", false, false⟩] "2" none (some true) (by decide)).2.2.2.1
        (by decide) (by decide) (by decide)
      simpa using h⟩

/-! ## Claim C5: date normalization -/

/-- C5: an input already shaped `YYYY-MM-DD` is stored verbatim; any other
input the date parser accepts is stored reformatted from its UTC calendar
fields; an unparseable input leaves `field3` and the whole document
unchanged. -/
theorem date_normalization (parse : String → Option UTCDate) (doc : AgentState)
    (itemId : String) (data : JsObj) (old : String) (s : String)
    (hf : jsGet data "field3" = some (JsValue.vstr old)) :
    (isISODateShape s = true →
      normalizeDate parse (some s) = some s ∧
      setProjectField3Handler parse doc itemId (some s) =
        updateItemData doc itemId (field3Updater s) ∧
      field3Updater s data = jsSet data "field3" (JsValue.vstr s)) ∧
    (∀ d, isISODateShape s = false → parse s = some d →
      normalizeDate parse (some s) = some (formatUTCDate d) ∧
      setProjectField3Handler parse doc itemId (some s) =
        updateItemData doc itemId (field3Updater (formatUTCDate d)) ∧
      field3Updater (formatUTCDate d) data =
        jsSet data "field3" (JsValue.vstr (formatUTCDate d))) ∧
    (isISODateShape s = false → parse s = none →
      setProjectField3Handler parse doc itemId (some s) = doc) := by
  refine ⟨?_, ?_, ?_⟩
  · intro hiso
    have hnorm : normalizeDate parse (some s) = some s := by
      simp [normalizeDate, hiso]
    exact ⟨hnorm, by simp only [setProjectField3Handler, hnorm],
      by simp [field3Updater, hf]⟩
  · intro d hiso hp
    have hnorm : normalizeDate parse (some s) = some (formatUTCDate d) := by
      simp [normalizeDate, hiso, hp]
    exact ⟨hnorm, by simp only [setProjectField3Handler, hnorm],
      by simp [field3Updater, hf]⟩
  · intro hiso hp
    have hnorm : normalizeDate parse (some s) = none := by
      simp [normalizeDate, hiso, hp]
    simp only [setProjectField3Handler, hnorm]

theorem date_normalization_witness :
    (jsGet [("field3", JsValue.vstr "")] "field3" = some (JsValue.vstr "")) ∧
    normalizeDate (fun _ => none) (some "2025-01-30") = some "2025-01-30" :=
  ⟨by decide,
    ((date_normalization (fun _ => none) sampleDoc "0001"
      [("field3", JsValue.vstr "")] "" "2025-01-30" (by decide)).1 (by decide)).1⟩

/-! ## Claim C8: metric value clamping -/

/-- C8: adding or setting a chart metric value clamps numeric input to
`[0, 100]` (150 stores 100, -10 stores 0); the clear operation stores the
unset marker, which differs from the number 0. -/
theorem metric_value_clamping (doc : AgentState) (itemId : String)
    (data : JsObj) (l : List Metric) (c : Int) (label : Option String)
    (v : Int) (i : Nat) (mt : Metric)
    (hf : jsGet data "field1" = some (JsValue.varrM l))
    (hfid : jsGet data "field1_id" = some (JsValue.vnum c))
    (hi : l.get? i = some mt) :
    (∃ newId, (chartAddField1Metric data label (some v)).2 = newId ∧
      jsGet (chartAddField1Metric data label (some v)).1 "field1" =
        some (JsValue.varrM (l ++
          [⟨newId, jsTrim (label.getD ""), MetricValue.num (clampMetric v)⟩]))) ∧
    (jsGet (chartAddField1Metric data label none).1 "field1" =
      some (JsValue.varrM (l ++
        [⟨(chartAddField1Metric data label none).2, jsTrim (label.getD ""),
          MetricValue.unset⟩]))) ∧
    (jsGet (chartSetField1Value data i (MetricValue.num v)) "field1" =
      some (JsValue.varrM (l.set i { mt with value := MetricValue.num (clampMetric v) }))) ∧
    (jsGet (chartSetField1Value data i MetricValue.unset) "field1" =
      some (JsValue.varrM (l.set i { mt with value := MetricValue.unset }))) ∧
    (setChartField1ValueHandler doc itemId i v =
      updateItemData doc itemId (fun prev => chartSetField1Value prev i (MetricValue.num v))) ∧
    (clearChartField1ValueHandler doc itemId i =
      updateItemData doc itemId (fun prev => chartSetField1Value prev i MetricValue.unset)) ∧
    clampMetric 150 = 100 ∧ clampMetric (-10) = 0 ∧
    MetricValue.unset ≠ MetricValue.num 0 := by
  refine ⟨?_, ?_, ?_, ?_, rfl, rfl, by decide, by decide, by decide⟩
  · refine ⟨(chartAddField1Metric data label (some v)).2, rfl, ?_⟩
    simp only [chartAddField1Metric, hf, hfid]
    rw [jsGet_jsSet_other _ _ _ _ (by decide), jsGet_jsSet_same]
  · simp only [chartAddField1Metric, hf, hfid]
    rw [jsGet_jsSet_other _ _ _ _ (by decide), jsGet_jsSet_same]
  · simp only [chartSetField1Value, hf, hi, jsGet_jsSet_same]
  · simp only [chartSetField1Value, hf, hi, jsGet_jsSet_same]

theorem metric_value_clamping_witness :
    (jsGet [("field1", JsValue.varrM [⟨"001", "speed", MetricValue.num 5⟩]),
        ("field1_id", JsValue.vnum 1)] "field1" =
      some (JsValue.varrM [⟨"001", "speed", MetricValue.num 5⟩])) ∧
    (jsGet [("field1", JsValue.varrM [⟨"001", "speed", MetricValue.num 5⟩]),
        ("field1_id", JsValue.vnum 1)] "field1_id" = some (JsValue.vnum 1)) ∧
    ([⟨"001", "speed", MetricValue.num 5⟩] : List Metric).get? 0 =
      some ⟨"001", "speed", MetricValue.num 5⟩ ∧
    jsGet (chartSetField1Value
        [("field1", JsValue.varrM [⟨"001", "speed", MetricValue.num 5⟩]),
         ("field1_id", JsValue.vnum 1)] 0 (MetricValue.num 150)) "field1" =
      some (JsValue.varrM [⟨"001", "speed", MetricValue.num 100⟩]) :=
  ⟨by decide, by decide, by decide,
    by
      have h := (metric_value_clamping sampleDoc "0001"
        [("field1", JsValue.varrM [⟨"001", "speed", MetricValue.num 5⟩]),
         ("field1_id", JsValue.vnum 1)]
        [⟨"001", "speed", MetricValue.num 5⟩] 1 none 150 0
        ⟨"001", "speed", MetricValue.num 5⟩ (by decide) (by decide) (by decide)).2.2.1
      simpa using h⟩

/-! ## Claim C9: data shape discipline -/

/-- C9 counterexample: the entity tag-add command run against a note item
adds a `field3` key to the note's data, so the data shape of a non-entity
item is not preserved: the claim as stated is false. -/
theorem entity_tag_add_changes_note_shape :
    jsGet (defaultDataFor CardType.note) "field3" = none ∧
    (addEntityField3Handler sampleDoc "brave" "0001").items.map Item.data =
      [[("field1", JsValue.vstr ""), ("field3", JsValue.varrS ["brave"])]] ∧
    (addEntityField3Handler sampleDoc "brave" "0001").items.map
      (fun it => jsGet it.data "field3") = [some (JsValue.varrS ["brave"])] ∧
    (addEntityField3Handler sampleDoc "brave" "0001").items.map Item.data ≠
      [defaultDataFor CardType.note] := by
  refine ⟨by decide, by decide, by decide, by decide⟩

/-- C9 (amended): the setters that carry a structural guard
(`hasOwnProperty` / `typeof` checks) are silent no-ops when the target data
does not declare the field, and data updates never change an item's id or
type; the entity tag-add command, however, has no guard and creates a
`field3` key on data that lacks one. -/
theorem typed_setters_guarded :
    (∀ (doc : AgentState) (itemId : String) (f : JsObj → JsObj),
      (updateItemData doc itemId f).items.map (fun p => (p.id, p.type)) =
        doc.items.map (fun p => (p.id, p.type))) ∧
    (∀ (v : String) (data : JsObj), jsGet data "field1" = none →
      setNoteField1Updater v data = data) ∧
    (∀ (v : String) (data : JsObj),
      (∀ s, jsGet data "field1" ≠ some (JsValue.vstr s)) →
      setProjectField1Updater v data = data) ∧
    (∀ (v : String) (data : JsObj), jsGet data "name" = none →
      setCharacterNameUpdater v data = data) ∧
    (∀ (tr : String) (data : JsObj), jsGet data "traits" = none →
      addCharacterTraitUpdater tr data = data) ∧
    (∀ (v : String) (data : JsObj), jsGet data "title" = none →
      setStoryTitleUpdater v data = data) ∧
    (∀ (tag : String) (data : JsObj), jsGet data "field3" = none →
      addEntityField3Updater tag data = jsSet data "field3" (JsValue.varrS [tag])) ∧
    (∀ (v : String) (data : JsObj),
      (∀ s, jsGet data "field2" ≠ some (JsValue.vstr s)) →
      setProjectField2Updater v data = data) ∧
    (∀ (v : String) (data : JsObj),
      (∀ s, jsGet data "field3" ≠ some (JsValue.vstr s)) →
      field3Updater v data = data) ∧
    (∀ (v : String) (data : JsObj),
      (∀ s, jsGet data "field1" ≠ some (JsValue.vstr s)) →
      setEntityField1Updater v data = data) ∧
    (∀ (v : String) (data : JsObj),
      (∀ s, jsGet data "field2" ≠ some (JsValue.vstr s)) →
      setEntityField2Updater v data = data) ∧
    (∀ (v : String) (data : JsObj), jsGet data "description" = none →
      setCharacterDescriptionUpdater v data = data) ∧
    (∀ (v : String) (data : JsObj), jsGet data "image_url" = none →
      setCharacterImageUrlUpdater v data = data) ∧
    (∀ (v : String) (data : JsObj), jsGet data "source_comic" = none →
      setCharacterSourceComicUpdater v data = data) ∧
    (∀ (now : Nat) (cap : String) (dur : Option Int) (data : JsObj),
      jsGet data "slides" = none → addStorySlideUpdater now cap dur data = data) ∧
    (∀ (sid cap : String) (data : JsObj), jsGet data "slides" = none →
      setStorySlideCaptionUpdater sid cap data = data) ∧
    (∀ (sid : String) (d : Int) (data : JsObj), jsGet data "slides" = none →
      setStorySlideDurationUpdater sid d data = data) ∧
    (∀ (sid : String) (data : JsObj), jsGet data "slides" = none →
      removeStorySlideUpdater sid data = data) ∧
    (∀ (tag : String) (data : JsObj), jsGet data "field3" = none →
      removeEntityField3Updater tag data = jsSet data "field3" (JsValue.varrS [])) := by
  refine ⟨?_, ?_, ?_, ?_, ?_, ?_, ?_, ?_, ?_, ?_, ?_, ?_, ?_, ?_, ?_, ?_, ?_, ?_, ?_⟩
  · intro doc itemId f
    show (doc.items.map _).map _ = _
    rw [List.map_map]
    apply List.map_congr_left
    intro p _
    by_cases hp : p.id = itemId
    · simp [Function.comp, hp]
    · simp [Function.comp, hp]
  · intro v data h
    simp [setNoteField1Updater, jsHas, h]
  · intro v data h
    cases hg : jsGet data "field1" with
    | none => simp [setProjectField1Updater, hg]
    | some w =>
      cases w with
      | vstr s => exact absurd hg (h s)
      | vnum n => simp [setProjectField1Updater, hg]
      | vbool b => simp [setProjectField1Updater, hg]
      | varrS xs => simp [setProjectField1Updater, hg]
      | varrC xs => simp [setProjectField1Updater, hg]
      | varrM xs => simp [setProjectField1Updater, hg]
      | varrSl xs => simp [setProjectField1Updater, hg]
  · intro v data h
    simp [setCharacterNameUpdater, jsHas, h]
  · intro tr data h
    simp [addCharacterTraitUpdater, h]
  · intro v data h
    simp [setStoryTitleUpdater, jsHas, h]
  · intro tag data h
    simp [addEntityField3Updater, h, setAdd, dedupKeepFirst, dedupAux]
  · intro v data h
    cases hg : jsGet data "field2" with
    | none => simp [setProjectField2Updater, hg]
    | some w => cases w <;> simp_all [setProjectField2Updater]
  · intro v data h
    cases hg : jsGet data "field3" with
    | none => simp [field3Updater, hg]
    | some w => cases w <;> simp_all [field3Updater]
  · intro v data h
    cases hg : jsGet data "field1" with
    | none => simp [setEntityField1Updater, hg]
    | some w => cases w <;> simp_all [setEntityField1Updater]
  · intro v data h
    cases hg : jsGet data "field2" with
    | none => simp [setEntityField2Updater, hg]
    | some w => cases w <;> simp_all [setEntityField2Updater]
  · intro v data h
    simp [setCharacterDescriptionUpdater, jsHas, h]
  · intro v data h
    simp [setCharacterImageUrlUpdater, jsHas, h]
  · intro v data h
    simp [setCharacterSourceComicUpdater, jsHas, h]
  · intro now cap dur data h
    simp [addStorySlideUpdater, h]
  · intro sid cap data h
    simp [setStorySlideCaptionUpdater, h]
  · intro sid d data h
    simp [setStorySlideDurationUpdater, h]
  · intro sid data h
    simp [removeStorySlideUpdater, h]
  · intro tag data h
    simp [removeEntityField3Updater, h]

theorem typed_setters_guarded_witness :
    jsGet (defaultDataFor CardType.story) "field1" = none ∧
    setNoteField1Updater "hello" (defaultDataFor CardType.story) =
      defaultDataFor CardType.story :=
  ⟨by decide,
    typed_setters_guarded.2.1 "hello" (defaultDataFor CardType.story) (by decide)⟩

end TinyLegends
